import Mathlib

/-!
Verification development for the DXDatabase remote-object handler
(`src/python/dxpy/bindings/dxdatabase.py` of dx-toolkit).

The Python module is shallowly embedded below: pure helper functions become
Lean functions, the handler's mutable attributes become an explicit state
record, the per-handler lock is modelled by executing the locked critical
section atomically (concurrent callers are serialized by the lock, so every
interleaving is equal to some sequential order of atomic critical sections),
and Python dictionaries handed across the API boundary are modelled by a
reference store so that `copy.copy` aliasing behaviour is observable.
Python's float arithmetic in `_readable_part_size` is modelled with exact
rationals together with round-half-to-even formatting; this coincides with
CPython's behaviour for every byte count below 2^53 (where `B/1024.0` etc.
are exact doubles and `str.format` rounds them half-to-even).
-/

namespace DxDatabase

/-- Python values, as far as this module inspects them: `basestring` checks in
`_validate_headers` and dictionary payloads. -/
inductive PyVal where
  | str (s : String)
  | int (n : ℤ)
  | pyNone
  | bytes (bs : List Nat)
deriving DecidableEq, Repr

/-- `isinstance(v, basestring)` -/
def PyVal.isString : PyVal → Bool
  | .str _ => true
  | _ => false

/-- A Python dict as an association list (iteration order = insertion order). -/
abbrev HeaderMap := List (PyVal × PyVal)

/-- Embedding of `_validate_headers`: iterate over `headers.items()`, raising
`ValueError` at the first non-string key or value, otherwise returning the
mapping itself unchanged. -/
def validate_headers : HeaderMap → Except String HeaderMap :=
  fun headers => go headers headers
where
  go (headers : HeaderMap) : List (PyVal × PyVal) → Except String HeaderMap
  | [] => .ok headers
  | (key, value) :: rest =>
      if ¬ key.isString then
        .error "Expected key of headers to be a string"
      else if ¬ value.isString then
        .error "Expected value of headers to be a string"
      else
        go headers rest

/-- Round half to even on rationals: what CPython's fixed-point float
formatting does to an exactly-representable value. -/
def roundHalfEven (q : ℚ) : ℤ :=
  let f : ℤ := ⌊q⌋
  let r : ℚ := q - f
  if r < 1/2 then f
  else if 1/2 < r then f + 1
  else if f % 2 = 0 then f else f + 1

/-- Render a nonnegative rational with exactly two decimal places, as
CPython's `"\x7b0:.2f\x7d".format` does on an exact double. -/
def formatTwoDec (q : ℚ) : String :=
  let m : ℤ := roundHalfEven (q * 100)
  let n : ℕ := m.toNat
  let frac : ℕ := n % 100
  let fracStr : String := if frac < 10 then "0" ++ toString frac else toString frac
  toString (n / 100) ++ "." ++ fracStr

/-- Embedding of `_readable_part_size`.  The Python function falls through
(returning `None`) only if no branch matches, hence the `Option` result.
`B/KB` etc. is Python true division, modelled exactly on ℚ. -/
def readable_part_size (num_bytes : ℕ) : Option String :=
  let B := num_bytes
  let KB : ℕ := 1024
  let MB : ℕ := KB * 1024
  let GB : ℕ := MB * 1024
  let TB : ℕ := GB * 1024
  if B < KB then
    some (toString B ++ " " ++ (if B ≠ 1 then "bytes" else "byte"))
  else if KB ≤ B ∧ B < MB then
    some (formatTwoDec ((B : ℚ) / KB) ++ " KiB")
  else if MB ≤ B ∧ B < GB then
    some (formatTwoDec ((B : ℚ) / MB) ++ " MiB")
  else if GB ≤ B ∧ B < TB then
    some (formatTwoDec ((B : ℚ) / GB) ++ " GiB")
  else if TB ≤ B then
    some (formatTwoDec ((B : ℚ) / TB) ++ " TiB")
  else
    none

/-- Spec-side formatter, written from the specification's words: select the
largest base-1024 unit (bytes / KiB / MiB / GiB / TiB) in which the magnitude
is at least 1, print two decimal places for KiB and above, and an integer
with a singular/plural noun for bytes.  Compared with `readable_part_size`
in the refinement theorem for the size-formatter claim. -/
def specReadableSize (n : ℕ) : String :=
  if 1024 ^ 4 ≤ n then formatTwoDec ((n : ℚ) / 1024 ^ 4) ++ " TiB"
  else if 1024 ^ 3 ≤ n then formatTwoDec ((n : ℚ) / 1024 ^ 3) ++ " GiB"
  else if 1024 ^ 2 ≤ n then formatTwoDec ((n : ℚ) / 1024 ^ 2) ++ " MiB"
  else if 1024 ≤ n then formatTwoDec ((n : ℚ) / 1024) ++ " KiB"
  else toString n ++ " " ++ (if n = 1 then "byte" else "bytes")

/-- `mode.replace("b", "")`: remove every occurrence of the character `b`. -/
def stripB (m : List Char) : List Char :=
  m.filter (fun c => c ≠ 'b')

/-- Outcome of the mode-handling part of `DXDatabase.__init__`. -/
structure ModeResult where
  binary_mode : Bool
  close_on_exit : Bool
deriving DecidableEq, Repr

/-- Embedding of the mode validation in `DXDatabase.__init__` (a mode is a
list of characters; `none` is Python's `mode=None`). -/
def parseMode : Option (List Char) → Except String ModeResult
  | none => .ok { binary_mode := false, close_on_exit := true }
  | some mode =>
      let binary := 'b' ∈ mode
      let mode1 := if binary then stripB mode else mode
      if mode1 = ['r'] ∨ mode1 = ['w'] ∨ mode1 = ['a'] then
        .ok { binary_mode := binary, close_on_exit := mode1 = ['w'] }
      else
        .error "mode must be one of r, w, or a"

/-! ### Line iteration (`DXDatabase.__iter__`, Python 3 branch) -/

/-- Python `str.splitlines` restricted to `\n` terminators: split at every
newline, dropping the terminators; a trailing newline produces no trailing
empty line; the empty string yields no lines. -/
def splitlines : List Char → List (List Char)
  | [] => []
  | c :: rest =>
      if c = '\n' then [] :: splitlines rest
      else
        match splitlines rest with
        | [] => [[c]]
        | l :: ls => (c :: l) :: ls

/-- One pass of the `while not done` loop of `__iter__`, with the handler's
`read` modelled from the spec (see `produce_lines`): `buffer` is the
generator's unsplit remainder, `remaining` the not-yet-read content.  The
fuel argument only forces termination; `produce_lines` supplies enough of it
that it is never exhausted. -/
def iterLines (bufsize : ℕ) : ℕ → List Char → List Char → List (List Char)
  | 0, buffer, _ => if buffer ≠ [] then [buffer] else []
  | fuel + 1, buffer, remaining =>
      if '\n' ∈ buffer then
        let lines := splitlines buffer
        lines.dropLast ++ iterLines bufsize fuel (lines.getLastD []) remaining
      else
        let more := remaining.take bufsize
        if more = [] then
          if buffer ≠ [] then [buffer] else []
        else
          iterLines bufsize fuel (buffer ++ more) (remaining.drop bufsize)

/-- Embedding of `DXDatabase.__iter__` (Python 3 branch) over an object whose
character content is `content`.

Modelled from the spec: the handler's `read(n)` method is not part of this
source file; per the spec it "returns up to `n` units … returns a
short/empty result at end-of-object", so it is modelled as taking the next
`bufsize` characters of the remaining content.  `__iter__` itself follows
the source: it raises `DXFileError` (the spec's `InvalidModeError`) when the
handler is in binary mode, and otherwise splits buffered reads on newlines,
yielding a final partial line only if nonempty. -/
def produce_lines (binary_mode : Bool) (bufsize : ℕ) (content : List Char) :
    Except String (List (List Char)) :=
  if binary_mode then
    .error "Cannot read lines when file opened in binary mode"
  else
    .ok (iterLines bufsize (2 * content.length + 2)
          (content.take bufsize) (content.drop bufsize))

/-! ### Project-hint resolution and request arguments (`get_download_url`,
pre-lock section) -/

/-- A Python object standing in a project-hint position.  `sentinel` is the
class attribute `DXDatabase.NO_PROJECT_HINT` itself; `named p` is any other
string object, so that the source's identity test `is not NO_PROJECT_HINT`
is equality with `sentinel`. -/
inductive ProjHint where
  | sentinel
  | named (p : String)
deriving DecidableEq, Repr

/-- A value in the `args` dict sent to the transport. -/
inductive ArgVal where
  | bool (b : Bool)
  | int (n : ℤ)
  | str (s : String)
  | hint (h : ProjHint)
deriving DecidableEq, Repr

/-- Inputs of the argument-building section of `get_download_url`:
the explicit parameters plus the environment and collaborator answers it
consults. -/
structure ArgsInput where
  duration : Option ℤ
  preauthenticated : Bool
  filename : Option String
  src_filename : Option String
  project : Option ProjHint
  dx_job_id_in_env : Bool
  handler_proj : Option String
  exists_in_project : Bool
deriving Repr

/-- The project-hint fallback of `get_download_url`: with no explicit project
and outside a job environment, use the handler's project only when it is
set, nonempty (Python truthiness) and the existence collaborator confirms it
contains the object. -/
def resolveProject (inp : ArgsInput) : Option ProjHint :=
  if inp.project = none ∧ ¬ inp.dx_job_id_in_env then
    match inp.handler_proj with
    | some p => if p ≠ "" ∧ inp.exists_in_project then some (.named p) else none
    | none => none
  else inp.project

/-- Embedding of the `args` dict built by `get_download_url` before the
locked section: `preauthenticated` always, `duration` and `filename`
(from `src_filename`) when given, and `projectContext` only for a resolved
project that is not the `NO_PROJECT_HINT` sentinel. -/
def buildArgs (inp : ArgsInput) : List (String × ArgVal) :=
  let base := [("preauthenticated", ArgVal.bool inp.preauthenticated)]
  let base := base ++ (match inp.duration with
    | some d => [("duration", ArgVal.int d)]
    | none => [])
  let base := base ++ (match inp.src_filename with
    | some f => [("filename", ArgVal.str f)]
    | none => [])
  match resolveProject inp with
  | some (.named p) => base ++ [("projectContext", ArgVal.str p)]
  | _ => base

/-- Does the args dict contain a `projectContext` key? -/
def hasProjectContext (args : List (String × ArgVal)) : Bool :=
  args.any (fun kv => kv.1 = "projectContext")

/-! ### The download-URL credential cache (`get_download_url`, locked
section, and the handler state it lives in)

Python dictionaries are heap objects; `copy.copy` allocates a fresh one.  To
make that observable, dictionaries crossing this interface live in a `Store`
and are handled by reference (`Nat` index). -/

/-- A heap of dictionaries. -/
structure Store where
  dicts : List HeaderMap
deriving Repr

/-- Allocate a fresh dictionary; returns the new store and the reference. -/
def Store.alloc (st : Store) (d : HeaderMap) : Store × Nat :=
  ({ dicts := st.dicts ++ [d] }, st.dicts.length)

/-- Dereference (out-of-range never occurs for allocated references). -/
def Store.get (st : Store) (r : Nat) : HeaderMap :=
  st.dicts.getD r []

/-- Mutate the dictionary behind a reference in place. -/
def Store.mutate (st : Store) (r : Nat) (d : HeaderMap) : Store :=
  { dicts := st.dicts.set r d }

/-- The handler attributes of `DXDatabase` that the claims are about.
`read_buf` is the `BytesIO` read buffer (its byte content);
the `_download_url*` triple is the credential cache, all `None` initially.
The `_url_download_mutex` is not part of the state: it serializes the locked
section, which the embedding runs atomically. -/
structure DBState where
  dxid : String
  proj : Option String
  binary_mode : Bool
  close_on_exit : Bool
  read_buf : List Nat
  download_url : Option String
  download_url_headers : Option Nat
  download_url_expires : Option ℚ
deriving Repr

/-- The state set up by `DXDatabase.__init__` after a successful mode parse:
empty read buffer, credential triple unset. -/
def initState (dxid : String) (proj : Option String) (m : ModeResult) : DBState :=
  { dxid := dxid
    proj := proj
    binary_mode := m.binary_mode
    close_on_exit := m.close_on_exit
    read_buf := []
    download_url := none
    download_url_headers := none
    download_url_expires := none }

/-- Embedding of `DXDatabase.set_ids`: it calls `DXDataObject.set_ids`
(which re-binds the stored object and project ids) and nothing else — the
"Reset state" section of the source is commented out, so the read buffer
and the cached credential triple are left as they are. -/
def set_ids (s : DBState) (dxid : String) (project : Option String) : DBState :=
  { s with dxid := dxid, proj := project }

/-- The response of the transport collaborator
`dxpy.api.database_download_file`: the fields `get_download_url` reads.
`headers` is `none` when the response has no `headers` key
(`resp.get("headers", \x7b\x7d)` then supplies the empty dict); `expires` is
the server-reported expiry in milliseconds. -/
structure DownloadResp where
  url : String
  headers : Option HeaderMap
  expires : ℚ
deriving Repr

/-- `FILE_REQUEST_TIMEOUT` -/
def FILE_REQUEST_TIMEOUT : ℕ := 60

/-- The sentinel expiry stored for non-preauthenticated URLs
("doesn't expire (year 3000)"). -/
def FAR_FUTURE_EXPIRES : ℚ := 32503680000

/-- The cache check `self._download_url is None or
self._download_url_expires < time.time()`.  When the URL is set the source
compares the stored expiry with the clock (short-circuit guarantees the
expiry is only read then; in every reachable state it is set alongside the
URL). -/
def needFetch (s : DBState) (now : ℚ) : Bool :=
  match s.download_url, s.download_url_expires with
  | none, _ => true
  | some _, some e => decide (e < now)
  | some _, none => true

/-- What one call to the locked section returns: the URL, the reference to
this caller's own headers dict, the timeout passed to the transport when it
was invoked, and how many transport invocations happened (0 or 1). -/
structure LockedResult where
  url : String
  headersRef : Nat
  state : DBState
  store : Store
  apiCalls : ℕ
  timeoutUsed : Option ℕ
deriving Repr

/-- Embedding of the locked section of `get_download_url` (the body of
`with self._url_download_mutex:`), executed atomically by one caller:

* on cache miss or expiry, invoke the transport once (defaulting the
  timeout to `FILE_REQUEST_TIMEOUT`), store the URL, the validated headers
  and the new expiry (`expires/1000 - 60` when preauthenticated, the far
  future sentinel otherwise);
* then return the cached URL together with `copy.copy` of the cached
  headers dict — a freshly allocated dict with the same items.

`resp` is the response the transport would return for this caller's args;
`now` is `time.time()` during the call.  Header validation failure
propagates as the `ValueError` of `_validate_headers`. -/
def get_download_url_locked (preauthenticated : Bool) (timeout : Option ℕ)
    (resp : DownloadResp) (now : ℚ) (s : DBState) (store : Store) :
    Except String LockedResult :=
  if needFetch s now then
    match validate_headers (resp.headers.getD []) with
    | .error e => .error e
    | .ok hs =>
        let store1 := store.alloc hs
        let expires : ℚ :=
          if preauthenticated then resp.expires / 1000 - 60 else FAR_FUTURE_EXPIRES
        let s1 := { s with
          download_url := some resp.url
          download_url_headers := some store1.2
          download_url_expires := some expires }
        let store2 := store1.1.alloc (store1.1.get store1.2)
        .ok { url := resp.url, headersRef := store2.2, state := s1, store := store2.1,
              apiCalls := 1, timeoutUsed := some (timeout.getD FILE_REQUEST_TIMEOUT) }
  else
    match s.download_url, s.download_url_headers with
    | some u, some r =>
        let store2 := store.alloc (store.get r)
        .ok { url := u, headersRef := store2.2, state := s, store := store2.1,
              apiCalls := 0, timeoutUsed := none }
    | _, _ => .error "unreachable: cache hit with unset credential"

/-- `N` serialized executions of the locked section (the lock admits the
threads one at a time; all race at the same instant `now`, each with the
same transport response `resp`).  Returns each caller's `(url, headersRef)`
in admission order, the final state and store, and the total number of
transport invocations. -/
def runCalls (preauthenticated : Bool) (resp : DownloadResp) (now : ℚ) :
    ℕ → DBState → Store → Except String (List (String × Nat) × DBState × Store × ℕ)
  | 0, s, store => .ok ([], s, store, 0)
  | n + 1, s, store =>
      match get_download_url_locked preauthenticated none resp now s store with
      | .error e => .error e
      | .ok r =>
          match runCalls preauthenticated resp now n r.state r.store with
          | .error e => .error e
          | .ok (results, s2, store2, calls) =>
              .ok ((r.url, r.headersRef) :: results, s2, store2, r.apiCalls + calls)

/-- A concrete handler state with a populated credential cache (expiry 100),
used in closed instances of the cache theorems. -/
def warmState : DBState :=
  { dxid := "database-x", proj := none, binary_mode := false,
    close_on_exit := true, read_buf := [],
    download_url := some "https://cached",
    download_url_headers := some 0,
    download_url_expires := some (100 : ℚ) }

/-- The dictionary heap that `warmState`'s cached headers reference lives
in. -/
def warmStore : Store := ⟨[[(PyVal.str "k", PyVal.str "v")]]⟩

/-- `warmState` with the non-preauthenticated sentinel expiry. -/
def sentinelState : DBState :=
  { warmState with download_url_expires := some FAR_FUTURE_EXPIRES }

/-- A concrete transport response, used in closed instances. -/
def sampleResp : DownloadResp :=
  { url := "https://fresh", headers := none, expires := 1 }

/-- The results of a run of consecutive cache hits: every caller gets the
same URL and a freshly allocated headers reference, `base`, `base+1`, …
(specification-side characterization, compared with `runCalls`). -/
def hitResults (u : String) (base : ℕ) : ℕ → List (String × ℕ)
  | 0 => []
  | k + 1 => (u, base) :: hitResults u (base + 1) k

/-! ## Theorems -/

/-- When nothing remains to read, the buffer size no longer influences the
iteration (`read` only ever returns the empty result). -/
theorem iterLines_congr_of_nil (fuel : ℕ) (buffer : List Char) (b1 b2 : ℕ) :
    iterLines b1 fuel buffer [] = iterLines b2 fuel buffer [] := by
  induction fuel generalizing buffer with
  | zero => rfl
  | succ n ih =>
      rw [iterLines, iterLines]
      by_cases h : '\n' ∈ buffer
      · simp only [if_pos h]
        rw [ih]
      · simp [if_neg h]

/-- C4: on a text-mode handler whose read buffer covers the object (as the
default 16 MiB buffer does), line iteration over content `a\nb\nc` yields
exactly `["a","b","c"]`, over `a\nb\n` exactly `["a","b"]` (no empty final
line), and on a binary-mode handler it fails with the invalid-mode error. -/
theorem C4_line_iteration (bufsize : ℕ) (h : 5 ≤ bufsize) :
    produce_lines false bufsize ['a', '\n', 'b', '\n', 'c'] =
      .ok [['a'], ['b'], ['c']] ∧
    produce_lines false bufsize ['a', '\n', 'b', '\n'] = .ok [['a'], ['b']] ∧
    ∀ content, produce_lines true bufsize content =
      .error "Cannot read lines when file opened in binary mode" := by
  refine ⟨?_, ?_, fun content => rfl⟩
  · unfold produce_lines
    rw [List.take_of_length_le (by simp; omega),
        List.drop_eq_nil_of_le (by simp; omega),
        iterLines_congr_of_nil _ _ bufsize 5]
    rfl
  · unfold produce_lines
    rw [List.take_of_length_le (by simp; omega),
        List.drop_eq_nil_of_le (by simp; omega),
        iterLines_congr_of_nil _ _ bufsize 5]
    rfl

/-- Closed instance of the line-iteration theorem at the handler's default
read buffer size. -/
theorem C4_line_iteration_witness :
    produce_lines false (1024 * 1024 * 16) ['a', '\n', 'b', '\n', 'c'] =
      .ok [['a'], ['b'], ['c']] ∧
    produce_lines false (1024 * 1024 * 16) ['a', '\n', 'b', '\n'] =
      .ok [['a'], ['b']] ∧
    produce_lines true (1024 * 1024 * 16) ['a', '\n', 'b', '\n', 'c'] =
      .error "Cannot read lines when file opened in binary mode" := by
  obtain ⟨h1, h2, h3⟩ := C4_line_iteration (1024 * 1024 * 16) (by norm_num)
  exact ⟨h1, h2, h3 _⟩

/-- The loop of `_validate_headers`: all-string items give back the saved
mapping, any non-string item gives a `ValueError`. -/
theorem validate_headers_go_spec (headers : HeaderMap) (l : List (PyVal × PyVal)) :
    ((∀ p ∈ l, p.1.isString = true ∧ p.2.isString = true) →
        validate_headers.go headers l = .ok headers) ∧
    ((∃ p ∈ l, p.1.isString = false ∨ p.2.isString = false) →
        ∃ msg, validate_headers.go headers l = .error msg) := by
  induction l with
  | nil =>
      refine ⟨fun _ => rfl, fun hbad => ?_⟩
      obtain ⟨p, hp, _⟩ := hbad
      exact absurd hp (List.not_mem_nil p)
  | cons q rest ih =>
      constructor
      · intro hall
        have hq := hall q (List.mem_cons_self q rest)
        rw [validate_headers.go,
            if_neg (not_not_intro hq.1), if_neg (not_not_intro hq.2)]
        exact ih.1 fun p hp => hall p (List.mem_cons_of_mem q hp)
      · intro hbad
        obtain ⟨p, hp, hps⟩ := hbad
        rw [validate_headers.go]
        rcases List.mem_cons.mp hp with hpq | hprest
        · subst hpq
          by_cases hkey : p.1.isString = true
          · have hv : p.2.isString = false := by
              rcases hps with hk | hv
              · rw [hkey] at hk
                exact absurd hk (by simp)
              · exact hv
            rw [if_neg (not_not_intro hkey), if_pos (by simp [hv])]
            exact ⟨_, rfl⟩
          · rw [if_pos hkey]
            exact ⟨_, rfl⟩
        · by_cases hkey : q.1.isString = true
          · by_cases hval : q.2.isString = true
            · rw [if_neg (not_not_intro hkey), if_neg (not_not_intro hval)]
              exact ih.2 ⟨p, hprest, hps⟩
            · rw [if_neg (not_not_intro hkey), if_pos hval]
              exact ⟨_, rfl⟩
          · rw [if_pos hkey]
            exact ⟨_, rfl⟩

/-- C5: `_validate_headers` raises `ValueError` whenever some key or value of
the mapping is not a string, and otherwise (the empty mapping included)
returns the mapping itself unchanged — it is a pure function of its
argument, and on success its result is the very mapping it was given. -/
theorem C5_header_validation (hs : HeaderMap) :
    ((∀ p ∈ hs, p.1.isString = true ∧ p.2.isString = true) →
        validate_headers hs = .ok hs) ∧
    ((∃ p ∈ hs, p.1.isString = false ∨ p.2.isString = false) →
        ∃ msg, validate_headers hs = .error msg) :=
  validate_headers_go_spec hs hs

/-- Closed instance of the header-validation theorem: a string-only mapping
passes through unchanged, a mapping with an integer key is rejected. -/
theorem C5_header_validation_witness :
    validate_headers [(.str "k", .str "v")] = .ok [(.str "k", .str "v")] ∧
    ∃ msg, validate_headers [(.int 7, .str "v")] = .error msg :=
  ⟨(C5_header_validation [(.str "k", .str "v")]).1 (by decide),
   (C5_header_validation [(.int 7, .str "v")]).2
     ⟨(.int 7, .str "v"), by decide, by decide⟩⟩

/-- Characters other than `b` survive `mode.replace("b", "")` untouched. -/
theorem stripB_of_not_mem (m : List Char) (h : 'b' ∉ m) : stripB m = m :=
  List.filter_eq_self.mpr fun a ha => by
    have : a ≠ 'b' := fun hab => h (hab ▸ ha)
    simpa using this

/-- The final validation step of the mode handling: the result is a
`ValueError` exactly when the stripped mode is none of `r`, `w`, `a`. -/
theorem parseMode_tail (m1 : List Char) (res : ModeResult) :
    (∃ e, (if m1 = ['r'] ∨ m1 = ['w'] ∨ m1 = ['a']
             then (Except.ok res : Except String ModeResult)
             else .error "mode must be one of r, w, or a") = .error e) ↔
      ¬ (m1 = ['r'] ∨ m1 = ['w'] ∨ m1 = ['a']) := by
  by_cases hok : m1 = ['r'] ∨ m1 = ['w'] ∨ m1 = ['a']
  · rw [if_pos hok]
    exact ⟨fun ⟨e, he⟩ => Except.noConfusion he, fun hno => absurd hok hno⟩
  · rw [if_neg hok]
    exact ⟨fun _ => hok, fun _ => ⟨_, rfl⟩⟩

/-- C7: the mode handling of `__init__` first removes the binary flag `b`
from the mode string and then rejects it with `ValueError` exactly when what
remains is none of `r`, `w`, `a`; an omitted mode is accepted and marks the
handler to close on scope exit. -/
theorem C7_mode_validation :
    (parseMode none = .ok { binary_mode := false, close_on_exit := true }) ∧
    (∀ mode : List Char,
      (∃ e, parseMode (some mode) = .error e) ↔
        ¬ (stripB mode = ['r'] ∨ stripB mode = ['w'] ∨ stripB mode = ['a'])) := by
  refine ⟨rfl, fun mode => ?_⟩
  by_cases hb : 'b' ∈ mode
  · simp only [parseMode, if_pos hb]
    exact parseMode_tail (stripB mode) _
  · simp only [parseMode, if_neg hb]
    rw [stripB_of_not_mem mode hb]
    exact parseMode_tail mode _

/-- C8: `_readable_part_size` realizes the specification's formatter — for
every byte count it picks the largest base-1024 unit (bytes, KiB, MiB, GiB,
TiB) in which the magnitude is at least 1, printing two decimal places for
KiB and above and an integer with a singular/plural noun for bytes; in
particular 1 ↦ "1 byte", 1023 ↦ "1023 bytes", 1024 ↦ "1.00 KiB" and
1048576 ↦ "1.00 MiB". -/
theorem C8_size_formatter (n : ℕ) :
    readable_part_size n = some (specReadableSize n) ∧
    readable_part_size 1 = some "1 byte" ∧
    readable_part_size 1023 = some "1023 bytes" ∧
    readable_part_size 1024 = some "1.00 KiB" ∧
    readable_part_size 1048576 = some "1.00 MiB" := by
  have hone : formatTwoDec 1 = "1.00" := by
    have hr : roundHalfEven (1 * 100) = 100 := by
      simp only [roundHalfEven]
      norm_num
    simp only [formatTwoDec, hr]
    rfl
  have hkib : readable_part_size 1024 = some "1.00 KiB" := by
    have harg : ((1024 : ℕ) : ℚ) / ((1024 : ℕ) : ℚ) = 1 := by norm_num
    simp only [readable_part_size]
    rw [if_neg (by norm_num), if_pos (by norm_num), harg, hone]
    rfl
  have hmib : readable_part_size 1048576 = some "1.00 MiB" := by
    have harg : ((1048576 : ℕ) : ℚ) / (((1024 * 1024 : ℕ)) : ℚ) = 1 := by norm_num
    simp only [readable_part_size]
    rw [if_neg (by norm_num), if_neg (by norm_num), if_pos (by norm_num),
        harg, hone]
    rfl
  refine ⟨?_, by decide, by decide, hkib, hmib⟩
  have p2 : (1024 : ℕ) ^ 2 = 1024 * 1024 := by norm_num
  have p3 : (1024 : ℕ) ^ 3 = 1024 * 1024 * 1024 := by norm_num
  have p4 : (1024 : ℕ) ^ 4 = 1024 * 1024 * 1024 * 1024 := by norm_num
  simp only [readable_part_size, specReadableSize, p2, p3, p4]
  by_cases h1 : n < 1024
  · rw [if_pos h1,
        if_neg (show ¬ 1024 * 1024 * 1024 * 1024 ≤ n by omega),
        if_neg (show ¬ 1024 * 1024 * 1024 ≤ n by omega),
        if_neg (show ¬ 1024 * 1024 ≤ n by omega),
        if_neg (show ¬ 1024 ≤ n by omega)]
    by_cases h2 : n = 1
    · simp [h2]
    · simp [h2]
  · rw [if_neg h1]
    by_cases h2 : n < 1024 * 1024
    · rw [if_pos (show 1024 ≤ n ∧ n < 1024 * 1024 from ⟨by omega, h2⟩),
          if_neg (show ¬ 1024 * 1024 * 1024 * 1024 ≤ n by omega),
          if_neg (show ¬ 1024 * 1024 * 1024 ≤ n by omega),
          if_neg (show ¬ 1024 * 1024 ≤ n by omega),
          if_pos (show 1024 ≤ n by omega)]
      norm_num
    · rw [if_neg (show ¬ (1024 ≤ n ∧ n < 1024 * 1024) by omega)]
      by_cases h3 : n < 1024 * 1024 * 1024
      · rw [if_pos (show 1024 * 1024 ≤ n ∧ n < 1024 * 1024 * 1024 from
              ⟨by omega, h3⟩),
            if_neg (show ¬ 1024 * 1024 * 1024 * 1024 ≤ n by omega),
            if_neg (show ¬ 1024 * 1024 * 1024 ≤ n by omega),
            if_pos (show 1024 * 1024 ≤ n by omega)]
        norm_num
      · rw [if_neg (show ¬ (1024 * 1024 ≤ n ∧ n < 1024 * 1024 * 1024) by omega)]
        by_cases h4 : n < 1024 * 1024 * 1024 * 1024
        · rw [if_pos (show 1024 * 1024 * 1024 ≤ n ∧
                  n < 1024 * 1024 * 1024 * 1024 from ⟨by omega, h4⟩),
              if_neg (show ¬ 1024 * 1024 * 1024 * 1024 ≤ n by omega),
              if_pos (show 1024 * 1024 * 1024 ≤ n by omega)]
          norm_num
        · rw [if_neg (show ¬ (1024 * 1024 * 1024 ≤ n ∧
                  n < 1024 * 1024 * 1024 * 1024) by omega),
              if_pos (show 1024 * 1024 * 1024 * 1024 ≤ n by omega),
              if_pos (show 1024 * 1024 * 1024 * 1024 ≤ n by omega)]
          norm_num

/-- C6: with no explicit project argument, no `DX_JOB_ID` in the
environment, and the existence collaborator denying that the handler's
project contains the object, the args dict sent to the transport carries no
`projectContext` key; a hint that is the `NO_PROJECT_HINT` sentinel is
likewise dropped. -/
theorem C6_project_hint (inp inp2 : ArgsInput)
    (h1 : inp.project = none) (h2 : inp.dx_job_id_in_env = false)
    (h3 : inp.exists_in_project = false)
    (h4 : inp2.project = some .sentinel) :
    hasProjectContext (buildArgs inp) = false ∧
    hasProjectContext (buildArgs inp2) = false := by
  have base_free : ∀ jnp : ArgsInput, resolveProject jnp = none ∨
      resolveProject jnp = some .sentinel →
      hasProjectContext (buildArgs jnp) = false := by
    intro jnp hres
    have : (match resolveProject jnp with
        | some (.named p) =>
            (([("preauthenticated", ArgVal.bool jnp.preauthenticated)] ++
              (match jnp.duration with
                | some d => [("duration", ArgVal.int d)] | none => []) ++
              (match jnp.src_filename with
                | some f => [("filename", ArgVal.str f)] | none => [])) ++
              [("projectContext", ArgVal.str p)])
        | _ =>
            ([("preauthenticated", ArgVal.bool jnp.preauthenticated)] ++
              (match jnp.duration with
                | some d => [("duration", ArgVal.int d)] | none => []) ++
              (match jnp.src_filename with
                | some f => [("filename", ArgVal.str f)] | none => []))) =
        buildArgs jnp := rfl
    rw [← this]
    rcases hres with hres | hres <;>
      · rw [hres]
        simp only [hasProjectContext, List.any_append, List.any_cons, List.any_nil]
        rcases jnp.duration with _ | d <;> rcases jnp.src_filename with _ | f <;> simp
  constructor
  · refine base_free inp (Or.inl ?_)
    rw [resolveProject, if_pos ⟨h1, by rw [h2]; exact Bool.false_ne_true⟩]
    rcases hproj : inp.handler_proj with _ | p
    · rfl
    · show (if p ≠ "" ∧ inp.exists_in_project = true
            then some (ProjHint.named p) else none) = none
      rw [if_neg]
      rintro ⟨-, hex⟩
      rw [h3] at hex
      exact Bool.false_ne_true hex
  · refine base_free inp2 (Or.inr ?_)
    rw [resolveProject]
    by_cases hc : inp2.project = none ∧ ¬ inp2.dx_job_id_in_env
    · rw [hc.1] at h4
      exact absurd h4 (by simp)
    · rw [if_neg hc]
      exact h4

/-- Closed instance of the project-hint theorem: a handler bound to project
`project-x` that does not contain the object, called with no explicit
project outside a job, and a call passing the sentinel hint explicitly. -/
theorem C6_project_hint_witness :
    hasProjectContext (buildArgs
      { duration := none, preauthenticated := false, filename := none,
        src_filename := none, project := none, dx_job_id_in_env := false,
        handler_proj := some "project-x", exists_in_project := false }) = false ∧
    hasProjectContext (buildArgs
      { duration := some 30, preauthenticated := true, filename := none,
        src_filename := some "f.parquet", project := some .sentinel,
        dx_job_id_in_env := false, handler_proj := some "project-x",
        exists_in_project := true }) = false :=
  C6_project_hint _ _ rfl rfl rfl rfl

/-! ### Store lemmas -/

/-- A freshly allocated reference dereferences to the stored dictionary. -/
theorem Store.get_alloc (st : Store) (d : HeaderMap) :
    ((st.alloc d).1).get (st.alloc d).2 = d := by
  show (st.dicts ++ [d]).getD st.dicts.length [] = d
  rw [List.getD_eq_getElem?_getD, List.getElem?_concat_length]
  rfl

/-- Allocation leaves every existing reference untouched. -/
theorem Store.get_alloc_of_lt (st : Store) (d : HeaderMap) (r : Nat)
    (h : r < st.dicts.length) : ((st.alloc d).1).get r = st.get r := by
  show (st.dicts ++ [d]).getD r [] = st.dicts.getD r []
  rw [List.getD_eq_getElem?_getD, List.getElem?_append_left h,
      ← List.getD_eq_getElem?_getD]

/-- Mutating one dictionary in place does not change what any other
reference sees. -/
theorem Store.get_mutate_ne (st : Store) (r r' : Nat) (d : HeaderMap)
    (h : r ≠ r') : (st.mutate r d).get r' = st.get r' := by
  show (st.dicts.set r d).getD r' [] = st.dicts.getD r' []
  rw [List.getD_eq_getElem?_getD, List.getElem?_set_ne h,
      ← List.getD_eq_getElem?_getD]

/-! ### Cache behaviour -/

/-- On a still-valid cache, the locked section is a pure cache hit: no
transport call, unchanged state, and a fresh copy of the cached headers. -/
theorem locked_hit (preauth : Bool) (timeout : Option ℕ) (resp : DownloadResp)
    (now : ℚ) (s : DBState) (store : Store) (u : String) (r : Nat) (e : ℚ)
    (hurl : s.download_url = some u) (hhdr : s.download_url_headers = some r)
    (hexp : s.download_url_expires = some e) (hnow : ¬ e < now) :
    get_download_url_locked preauth timeout resp now s store =
      .ok { url := u, headersRef := store.dicts.length, state := s,
            store := ⟨store.dicts ++ [store.get r]⟩, apiCalls := 0,
            timeoutUsed := none } := by
  have hnf : needFetch s now = false := by
    rw [needFetch, hurl, hexp]
    exact decide_eq_false hnow
  rw [get_download_url_locked, if_neg (by rw [hnf]; exact Bool.false_ne_true),
      hurl, hhdr]
  rfl

/-- On a cache miss (or expired cache) with a well-formed transport
response, the locked section fetches once and installs the new triple. -/
theorem locked_miss (preauth : Bool) (timeout : Option ℕ) (resp : DownloadResp)
    (now : ℚ) (s : DBState) (store : Store) (hs : HeaderMap)
    (hmiss : needFetch s now = true)
    (hok : validate_headers (resp.headers.getD []) = .ok hs) :
    get_download_url_locked preauth timeout resp now s store =
      .ok { url := resp.url, headersRef := (store.dicts ++ [hs]).length,
            state := { s with
              download_url := some resp.url
              download_url_headers := some store.dicts.length
              download_url_expires := some (if preauth
                then resp.expires / 1000 - 60 else FAR_FUTURE_EXPIRES) },
            store := ⟨store.dicts ++ [hs] ++ [hs]⟩, apiCalls := 1,
            timeoutUsed := some (timeout.getD FILE_REQUEST_TIMEOUT) } := by
  rw [get_download_url_locked, if_pos hmiss]
  simp only [hok]
  rw [Store.get_alloc]
  rfl

/-- C2: when the cached URL is set and the cached expiry has not yet passed,
the locked section of `get_download_url` performs no transport request,
leaves the handler's state (in particular the cached triple) unchanged, and
returns the cached URL with a copy of the cached headers whose in-place
mutation cannot alter the cached dictionary. -/
theorem C2_cache_hit (preauth : Bool) (timeout : Option ℕ) (resp : DownloadResp)
    (now : ℚ) (s : DBState) (store : Store) (u : String) (r : Nat) (e : ℚ)
    (hurl : s.download_url = some u) (hhdr : s.download_url_headers = some r)
    (hexp : s.download_url_expires = some e) (hnow : ¬ e < now)
    (hr : r < store.dicts.length) :
    ∃ res : LockedResult,
      get_download_url_locked preauth timeout resp now s store = .ok res ∧
      res.apiCalls = 0 ∧
      res.state = s ∧
      res.url = u ∧
      res.headersRef ≠ r ∧
      res.store.get res.headersRef = store.get r ∧
      res.store.get r = store.get r ∧
      ∀ d, (res.store.mutate res.headersRef d).get r = store.get r := by
  refine ⟨_, locked_hit preauth timeout resp now s store u r e hurl hhdr hexp hnow,
    rfl, rfl, rfl, ?_, ?_, ?_, ?_⟩
  · exact fun hcontra => absurd (hcontra ▸ hr) (lt_irrefl _)
  · exact Store.get_alloc store (store.get r)
  · exact Store.get_alloc_of_lt store (store.get r) r hr
  · intro d
    rw [Store.get_mutate_ne _ _ _ d (fun hcontra => absurd (hcontra ▸ hr) (lt_irrefl _))]
    exact Store.get_alloc_of_lt store (store.get r) r hr

/-- Closed instance of the cache-hit theorem on a concrete warm handler. -/
theorem C2_cache_hit_witness :
    ∃ res : LockedResult,
      get_download_url_locked false none sampleResp 50 warmState warmStore =
        .ok res ∧
      res.apiCalls = 0 ∧
      res.state = warmState ∧
      res.url = "https://cached" ∧
      res.headersRef ≠ 0 ∧
      res.store.get res.headersRef = warmStore.get 0 ∧
      res.store.get 0 = warmStore.get 0 ∧
      ∀ d, (res.store.mutate res.headersRef d).get 0 = warmStore.get 0 := by
  refine C2_cache_hit false none sampleResp 50 warmState warmStore
    "https://cached" 0 100 rfl rfl rfl ?_ ?_
  · norm_num
  · show 0 < warmStore.dicts.length
    norm_num [warmStore]

/-- C3: after a credential fetch the stored expiry is
`expires/1000 − 60` when `preauthenticated` is true and the fixed sentinel
`32503680000` otherwise, and a later call refetches exactly when that stored
instant lies strictly before the later call's clock — i.e. the cached URL is
treated as valid up to and including the stored instant. -/
theorem C3_expiry (preauth : Bool) (timeout : Option ℕ) (resp : DownloadResp)
    (now : ℚ) (s : DBState) (store : Store) (hs : HeaderMap)
    (hmiss : needFetch s now = true)
    (hok : validate_headers (resp.headers.getD []) = .ok hs) :
    ∃ res : LockedResult,
      get_download_url_locked preauth timeout resp now s store = .ok res ∧
      res.apiCalls = 1 ∧
      res.state.download_url = some resp.url ∧
      res.state.download_url_expires =
        some (if preauth then resp.expires / 1000 - 60 else 32503680000) ∧
      (∀ now2 : ℚ, needFetch res.state now2 = true ↔
        (if preauth then resp.expires / 1000 - 60 else 32503680000) < now2) := by
  refine ⟨_, locked_miss preauth timeout resp now s store hs hmiss hok, rfl, rfl, rfl, ?_⟩
  intro now2
  rw [needFetch]
  exact decide_eq_true_iff

/-- Closed instance of the expiry theorem: a preauthenticated fetch on a
cold handler with server expiry 1000000 ms stores expiry 940 =
1000000/1000 − 60. -/
theorem C3_expiry_witness :
    ∃ res : LockedResult,
      get_download_url_locked true none
          { url := "https://u", headers := some [(PyVal.str "a", PyVal.str "b")],
            expires := 1000000 } 0
          (initState "database-x" none
            { binary_mode := false, close_on_exit := true }) ⟨[]⟩ = .ok res ∧
      res.apiCalls = 1 ∧
      res.state.download_url = some "https://u" ∧
      res.state.download_url_expires =
        some (if true then (1000000 : ℚ) / 1000 - 60 else 32503680000) ∧
      (∀ now2 : ℚ, needFetch res.state now2 = true ↔
        (if true then (1000000 : ℚ) / 1000 - 60 else 32503680000) < now2) := by
  have h := C3_expiry true none
    { url := "https://u", headers := some [(PyVal.str "a", PyVal.str "b")],
      expires := 1000000 } 0
    (initState "database-x" none { binary_mode := false, close_on_exit := true })
    ⟨[]⟩ [(PyVal.str "a", PyVal.str "b")] rfl rfl
  exact h

/-- C9 counterexample: `set_ids` does *not* reset the cached credential
triple (nor the read buffer) — on a handler with a populated cache, every
cached field survives a re-bind to a new object id. -/
theorem C9_set_ids_counterexample :
    (set_ids
        { dxid := "database-a", proj := some "project-a", binary_mode := false,
          close_on_exit := true, read_buf := [1, 2, 3],
          download_url := some "https://cached",
          download_url_headers := some 0, download_url_expires := some 100 }
        "database-b" (some "project-b")).download_url = some "https://cached" ∧
    (set_ids
        { dxid := "database-a", proj := some "project-a", binary_mode := false,
          close_on_exit := true, read_buf := [1, 2, 3],
          download_url := some "https://cached",
          download_url_headers := some 0, download_url_expires := some 100 }
        "database-b" (some "project-b")).download_url_headers = some 0 ∧
    (set_ids
        { dxid := "database-a", proj := some "project-a", binary_mode := false,
          close_on_exit := true, read_buf := [1, 2, 3],
          download_url := some "https://cached",
          download_url_headers := some 0, download_url_expires := some 100 }
        "database-b" (some "project-b")).download_url_expires = some 100 ∧
    (set_ids
        { dxid := "database-a", proj := some "project-a", binary_mode := false,
          close_on_exit := true, read_buf := [1, 2, 3],
          download_url := some "https://cached",
          download_url_headers := some 0, download_url_expires := some 100 }
        "database-b" (some "project-b")).read_buf = [1, 2, 3] ∧
    (set_ids
        { dxid := "database-a", proj := some "project-a", binary_mode := false,
          close_on_exit := true, read_buf := [1, 2, 3],
          download_url := some "https://cached",
          download_url_headers := some 0, download_url_expires := some 100 }
        "database-b" (some "project-b")).download_url ≠ none ∧
    (set_ids
        { dxid := "database-a", proj := some "project-a", binary_mode := false,
          close_on_exit := true, read_buf := [1, 2, 3],
          download_url := some "https://cached",
          download_url_headers := some 0, download_url_expires := some 100 }
        "database-b" (some "project-b")).read_buf ≠ [] :=
  ⟨rfl, rfl, rfl, rfl, fun h => Option.noConfusion h, fun h => List.noConfusion h⟩

/-- C9 (amended): `set_ids` re-binds the stored object and project ids and
leaves everything else — the read buffer and the cached credential triple —
exactly as it was; the triple is never reset, only overwritten by the next
fetch once it has expired. -/
theorem C9_set_ids_amended (s : DBState) (dxid : String) (project : Option String) :
    (set_ids s dxid project).dxid = dxid ∧
    (set_ids s dxid project).proj = project ∧
    (set_ids s dxid project).read_buf = s.read_buf ∧
    (set_ids s dxid project).download_url = s.download_url ∧
    (set_ids s dxid project).download_url_headers = s.download_url_headers ∧
    (set_ids s dxid project).download_url_expires = s.download_url_expires :=
  ⟨rfl, rfl, rfl, rfl, rfl, rfl⟩

/-- C10: the cache check looks only at presence and expiry, never at the
request parameters — on a populated, unexpired cache every later call, with
any `preauthenticated` flag, timeout and transport response whatsoever,
returns the cached URL and a copy of the cached headers without invoking
the transport; and a triple stored with the non-preauthenticated sentinel
expiry is never refetched at any process time before the year 3000. -/
theorem C10_cache_key (s : DBState) (store : Store) (u : String) (r : Nat)
    (e : ℚ) (hurl : s.download_url = some u)
    (hhdr : s.download_url_headers = some r)
    (hexp : s.download_url_expires = some e) :
    (∀ (preauth2 : Bool) (timeout2 : Option ℕ) (resp2 : DownloadResp) (now2 : ℚ),
      ¬ e < now2 →
      ∃ res : LockedResult,
        get_download_url_locked preauth2 timeout2 resp2 now2 s store = .ok res ∧
        res.apiCalls = 0 ∧ res.url = u ∧ res.state = s ∧
        res.store.get res.headersRef = store.get r) ∧
    (e = FAR_FUTURE_EXPIRES → ∀ now3 : ℚ, now3 < FAR_FUTURE_EXPIRES →
      needFetch s now3 = false) := by
  constructor
  · intro preauth2 timeout2 resp2 now2 hnow2
    exact ⟨_, locked_hit preauth2 timeout2 resp2 now2 s store u r e hurl hhdr hexp hnow2,
      rfl, rfl, rfl, Store.get_alloc store (store.get r)⟩
  · intro he now3 hnow3
    rw [needFetch, hurl, hexp]
    exact decide_eq_false (by rw [he]; exact not_lt_of_lt hnow3)

/-- Closed instance of the cache-key theorem: a URL cached with the
sentinel expiry is served from cache for a preauthenticated call with a
different response, and is not refetched at current process times. -/
theorem C10_cache_key_witness :
    (∃ res : LockedResult,
      get_download_url_locked true (some 5) sampleResp 1760227200
          sentinelState warmStore = .ok res ∧
      res.apiCalls = 0 ∧ res.url = "https://cached" ∧
      res.state = sentinelState ∧
      res.store.get res.headersRef = warmStore.get 0) ∧
    needFetch sentinelState 1760227200 = false := by
  have h := C10_cache_key sentinelState warmStore "https://cached" 0
    FAR_FUTURE_EXPIRES rfl rfl rfl
  refine ⟨h.1 true (some 5) sampleResp 1760227200 ?_, h.2 rfl 1760227200 ?_⟩
  · rw [FAR_FUTURE_EXPIRES]
    norm_num
  · rw [FAR_FUTURE_EXPIRES]
    norm_num

/-! ### Single-flight refresh under concurrency (C1) -/

/-- A prefix of a list answers `getD` below its length. -/
theorem getD_append_left_lt (l l2 : List HeaderMap) (r : ℕ) (h : r < l.length) :
    (l ++ l2).getD r [] = l.getD r [] := by
  rw [List.getD_eq_getElem?_getD, List.getElem?_append_left h,
      ← List.getD_eq_getElem?_getD]

/-- `getD` inside an appended replicate block. -/
theorem getD_append_replicate (l : List HeaderMap) (a : HeaderMap) (m j : ℕ)
    (h1 : l.length ≤ j) (h2 : j < l.length + m) :
    (l ++ List.replicate m a).getD j [] = a := by
  rw [List.getD_eq_getElem?_getD, List.getElem?_append_right h1,
      List.getElem?_replicate, if_pos (by omega)]
  rfl

/-- Growing the heap on the right does not change existing references. -/
theorem Store.get_append_right_lt (st : Store) (l2 : List HeaderMap) (r : ℕ)
    (h : r < st.dicts.length) : Store.get ⟨st.dicts ++ l2⟩ r = st.get r :=
  getD_append_left_lt st.dicts l2 r h

theorem hitResults_length (u : String) (base k : ℕ) :
    (hitResults u base k).length = k := by
  induction k generalizing base with
  | zero => rfl
  | succ n ih => simp [hitResults, ih]

theorem hitResults_map_snd (u : String) (base k : ℕ) :
    (hitResults u base k).map Prod.snd = List.range' base k := by
  induction k generalizing base with
  | zero => rfl
  | succ n ih => simp [hitResults, ih, List.range']

theorem hitResults_mem (u : String) (base k : ℕ) (p : String × ℕ)
    (hp : p ∈ hitResults u base k) : p.1 = u ∧ base ≤ p.2 ∧ p.2 < base + k := by
  induction k generalizing base with
  | zero => exact absurd hp (List.not_mem_nil p)
  | succ n ih =>
      rcases List.mem_cons.mp hp with hph | hpt
      · subst hph
        exact ⟨rfl, le_refl _, by omega⟩
      · obtain ⟨h1, h2, h3⟩ := ih (base + 1) hpt
        exact ⟨h1, by omega, by omega⟩

/-- From a warm handler state, `k` further serialized executions of the
locked section are all cache hits: zero transport invocations, state
untouched, and one fresh headers copy allocated per caller at consecutive
references. -/
theorem runCalls_hit (preauth : Bool) (resp : DownloadResp) (now : ℚ)
    (k : ℕ) (s : DBState) (u : String) (r : Nat) (e : ℚ)
    (hurl : s.download_url = some u) (hhdr : s.download_url_headers = some r)
    (hexp : s.download_url_expires = some e) (hnow : ¬ e < now) :
    ∀ (store : Store), r < store.dicts.length →
      runCalls preauth resp now k s store =
        .ok (hitResults u store.dicts.length k, s,
             ⟨store.dicts ++ List.replicate k (store.get r)⟩, 0) := by
  induction k with
  | zero =>
      intro store _
      simp [runCalls, hitResults]
  | succ n ih =>
      intro store hr
      have hih := ih ⟨store.dicts ++ [store.get r]⟩ (by simp; omega)
      have hget : Store.get ⟨store.dicts ++ [store.get r]⟩ r = store.get r :=
        Store.get_append_right_lt store [store.get r] r hr
      rw [hget] at hih
      rw [runCalls,
          locked_hit preauth none resp now s store u r e hurl hhdr hexp hnow]
      simp only [hih]
      simp [hitResults, List.replicate_succ, List.append_assoc]

/-- C1: `k+1` threads race `get_download_url` on a handler whose credential
triple is unset; the lock admits them one at a time, so the run is some
serialization of `k+1` atomic executions of the locked section.  Exactly one
transport invocation happens; every caller gets the transport's URL, and
each gets its own freshly allocated copy of the validated headers — the
references are pairwise distinct, distinct from the cached dictionary, and
mutating any one of them in place changes no other dictionary.  (The fetched
credential is assumed still valid at the shared instant `now`, i.e. the run
happens before the stored expiry.) -/
theorem C1_single_flight (k : ℕ) (preauth : Bool) (resp : DownloadResp)
    (now : ℚ) (s : DBState) (store : Store) (hs : HeaderMap)
    (hurl : s.download_url = none)
    (hok : validate_headers (resp.headers.getD []) = .ok hs)
    (hvalid : ¬ (if preauth then resp.expires / 1000 - 60
                 else FAR_FUTURE_EXPIRES) < now) :
    ∃ results s2 store2,
      runCalls preauth resp now (k + 1) s store = .ok (results, s2, store2, 1) ∧
      results.length = k + 1 ∧
      (∀ p ∈ results, p.1 = resp.url) ∧
      (∀ p ∈ results, store2.get p.2 = hs) ∧
      (results.map Prod.snd).Nodup ∧
      (∃ cr, s2.download_url_headers = some cr ∧ ∀ p ∈ results, p.2 ≠ cr) ∧
      (∀ p ∈ results, ∀ d r', r' ≠ p.2 →
        (store2.mutate p.2 d).get r' = store2.get r') := by
  have hmiss : needFetch s now = true := by
    rw [needFetch, hurl]
  have hfirst := locked_miss preauth none resp now s store hs hmiss hok
  have htail := runCalls_hit preauth resp now k
    { s with
      download_url := some resp.url
      download_url_headers := some store.dicts.length
      download_url_expires := some (if preauth
        then resp.expires / 1000 - 60 else FAR_FUTURE_EXPIRES) }
    resp.url store.dicts.length
    (if preauth then resp.expires / 1000 - 60 else FAR_FUTURE_EXPIRES)
    rfl rfl rfl hvalid ⟨store.dicts ++ [hs] ++ [hs]⟩ (by simp)
  have hcache : Store.get ⟨store.dicts ++ [hs] ++ [hs]⟩ store.dicts.length = hs := by
    show ((store.dicts ++ [hs]) ++ [hs]).getD store.dicts.length [] = hs
    rw [getD_append_left_lt _ _ _ (by simp),
        List.getD_eq_getElem?_getD, List.getElem?_concat_length]
    rfl
  rw [hcache] at htail
  have hlen2 : (⟨store.dicts ++ [hs] ++ [hs]⟩ : Store).dicts.length =
      store.dicts.length + 2 := by simp
  rw [hlen2] at htail
  have hrun : runCalls preauth resp now (k + 1) s store =
      .ok ((resp.url, (store.dicts ++ [hs]).length) ::
             hitResults resp.url (store.dicts.length + 2) k,
           { s with
             download_url := some resp.url
             download_url_headers := some store.dicts.length
             download_url_expires := some (if preauth
               then resp.expires / 1000 - 60 else FAR_FUTURE_EXPIRES) },
           ⟨(store.dicts ++ [hs] ++ [hs]) ++ List.replicate k hs⟩, 1) := by
    rw [runCalls, hfirst]
    simp only [htail]
  have hget_all : ∀ j, store.dicts.length ≤ j → j < store.dicts.length + 2 + k →
      Store.get ⟨(store.dicts ++ [hs] ++ [hs]) ++ List.replicate k hs⟩ j = hs := by
    intro j h1 h2
    show (((store.dicts ++ [hs]) ++ [hs]) ++ List.replicate k hs).getD j [] = hs
    have hassoc : ((store.dicts ++ [hs]) ++ [hs]) ++ List.replicate k hs =
        store.dicts ++ List.replicate (k + 1 + 1) hs := by
      rw [List.replicate_succ, List.replicate_succ]
      simp [List.append_assoc]
    rw [hassoc]
    exact getD_append_replicate store.dicts hs (k + 1 + 1) j h1 (by omega)
  refine ⟨_, _, _, hrun, ?_, ?_, ?_, ?_, ?_, ?_⟩
  · simp [hitResults_length]
  · intro p hp
    rcases List.mem_cons.mp hp with hph | hpt
    · rw [hph]
    · exact (hitResults_mem _ _ _ p hpt).1
  · intro p hp
    rcases List.mem_cons.mp hp with hph | hpt
    · rw [hph]
      exact hget_all _ (by simp) (by simp; omega)
    · obtain ⟨-, h1, h2⟩ := hitResults_mem _ _ _ p hpt
      exact hget_all _ (by omega) (by omega)
  · rw [List.map_cons, hitResults_map_snd]
    refine List.Nodup.cons ?_ (List.nodup_range' _ _)
    intro hmem
    have := List.mem_range'_1.mp hmem
    simp at this
  · refine ⟨store.dicts.length, rfl, ?_⟩
    intro p hp
    rcases List.mem_cons.mp hp with hph | hpt
    · rw [hph]
      simp
    · obtain ⟨-, h1, -⟩ := hitResults_mem _ _ _ p hpt
      omega
  · intro p hp d r' hne
    exact Store.get_mutate_ne _ _ _ d (fun hcontra => hne hcontra.symm)

/-- Closed instance of the single-flight theorem: two threads race on a
cold handler; the transport is invoked once and both get fresh copies. -/
theorem C1_single_flight_witness :
    ∃ results s2 store2,
      runCalls false sampleResp 1760227200 2
          (initState "database-x" none
            { binary_mode := false, close_on_exit := true }) ⟨[]⟩ =
        .ok (results, s2, store2, 1) ∧
      results.length = 2 ∧
      (∀ p ∈ results, p.1 = "https://fresh") ∧
      (∀ p ∈ results, store2.get p.2 = []) ∧
      (results.map Prod.snd).Nodup ∧
      (∃ cr, s2.download_url_headers = some cr ∧ ∀ p ∈ results, p.2 ≠ cr) ∧
      (∀ p ∈ results, ∀ d r', r' ≠ p.2 →
        (store2.mutate p.2 d).get r' = store2.get r') := by
  have h := C1_single_flight 1 false sampleResp 1760227200
    (initState "database-x" none { binary_mode := false, close_on_exit := true })
    ⟨[]⟩ [] rfl rfl (by rw [if_neg (by simp), FAR_FUTURE_EXPIRES]; norm_num)
  exact h

end DxDatabase
